import Mathlib

/-!
Verification of the core of `expectacle.js` (the expectation/matcher engine):
a shallow embedding of the runtime value model, the structural equality
engine (`deepEqual`/`objEquiv`), the Shape sub-system, the failure model
(`ExpectationError`), the expectation views and matcher dispatch
(`applyMatcher`), together with theorems settling the frozen claims.
-/

namespace Expectacle

/-- JavaScript numbers, to the precision the engine needs: the engine only
ever compares numbers for (strict) equality, so finite values are modelled
by integers while the non-finite values `NaN`, `Infinity` and `-Infinity`
are separate constructors. -/
inductive JsNum where
  | nan
  | inf
  | negInf
  | fin (v : Int)
deriving DecidableEq, Repr

/-- JavaScript runtime values. Heap-allocated values (objects, arrays,
arguments objects, dates, regexps, functions) carry an explicit `ref`
identifier standing for their heap address: strict equality (`===`)
compares these identifiers exactly as the engine compares references.
Distinct values constructed in the theorems below always use distinct
refs, mirroring a consistent heap. `ref 0` is reserved for the library
constant `NULL_VALUE`. A function carries the source text returned by its
`toString` (used by the JSON replacer). -/
inductive JsValue where
  | null
  | undefined
  | bool (b : Bool)
  | num (n : JsNum)
  | str (s : String)
  | fn (ref : Nat) (src : String)
  | date (ref : Nat) (time : Int)
  | regexp (ref : Nat) (source : String) (global multiline ignoreCase : Bool) (lastIndex : Int)
  | obj (ref : Nat) (fields : List (String × JsValue))
  | arr (ref : Nat) (elems : List JsValue)
  | args (ref : Nat) (elems : List JsValue)
deriving Repr

/-- The JavaScript `typeof` operator (note `typeof null` is `"object"`). -/
def jsTypeof : JsValue → String
  | .null => "object"
  | .undefined => "undefined"
  | .bool _ => "boolean"
  | .num _ => "number"
  | .str _ => "string"
  | .fn _ _ => "function"
  | _ => "object"

/-- The library type classifier `typeOf` (expectacle.js:81-94): `null` and
`undefined` are special-cased, every other value is tagged through its
internal class string. The memoisation of unknown class strings is
observationally pure and therefore not modelled. -/
def typeOf : JsValue → String
  | .null => "null"
  | .undefined => "undefined"
  | .bool _ => "boolean"
  | .num _ => "number"
  | .str _ => "string"
  | .fn _ _ => "function"
  | .date _ _ => "date"
  | .regexp _ _ _ _ _ _ => "regexp"
  | .obj _ _ => "object"
  | .arr _ _ => "array"
  | .args _ _ => "arguments"

/-- Strict equality on numbers: `NaN` is not equal to anything, including
itself; the two infinities are each equal to themselves. -/
def numStrictEq : JsNum → JsNum → Bool
  | .nan, _ => false
  | _, .nan => false
  | .inf, .inf => true
  | .negInf, .negInf => true
  | .fin a, .fin b => a == b
  | _, _ => false

/-- JavaScript strict equality (`===`): primitives compare by value (with
the `NaN` exception), heap values compare by reference. -/
def strictEq : JsValue → JsValue → Bool
  | .null, .null => true
  | .undefined, .undefined => true
  | .bool a, .bool b => a == b
  | .num a, .num b => numStrictEq a b
  | .str a, .str b => a == b
  | .fn r1 _, .fn r2 _ => r1 == r2
  | .date r1 _, .date r2 _ => r1 == r2
  | .regexp r1 _ _ _ _ _, .regexp r2 _ _ _ _ _ => r1 == r2
  | .obj r1 _, .obj r2 _ => r1 == r2
  | .arr r1 _, .arr r2 _ => r1 == r2
  | .args r1 _, .args r2 _ => r1 == r2
  | _, _ => false

/-- JavaScript truthiness of a value. -/
def jsTruthy : JsValue → Bool
  | .null => false
  | .undefined => false
  | .bool b => b
  | .num .nan => false
  | .num (.fin i) => i != 0
  | .num _ => true
  | .str s => s != ""
  | _ => true

/-- The loose test `x == null`, true exactly for `null` and `undefined`. -/
def isNullish : JsValue → Bool
  | .null => true
  | .undefined => true
  | _ => false

/-- `value instanceof Date`: in the model only genuine date values inhabit
the `Date` prototype chain. -/
def isDate : JsValue → Bool
  | .date _ _ => true
  | _ => false

/-- `value instanceof RegExp`. -/
def isRegExp : JsValue → Bool
  | .regexp _ _ _ _ _ _ => true
  | _ => false

/-- `date.getTime()`; only ever read under an `isDate` guard. -/
def dateGetTime : JsValue → Int
  | .date _ t => t
  | _ => 0

/-- `re.source`; only ever read under an `isRegExp` guard. -/
def regexpSource : JsValue → String
  | .regexp _ s _ _ _ _ => s
  | _ => ""

/-- `re.global`; only ever read under an `isRegExp` guard. -/
def regexpGlobal : JsValue → Bool
  | .regexp _ _ g _ _ _ => g
  | _ => false

/-- `re.multiline`; only ever read under an `isRegExp` guard. -/
def regexpMultiline : JsValue → Bool
  | .regexp _ _ _ m _ _ => m
  | _ => false

/-- `re.ignoreCase`; only ever read under an `isRegExp` guard. -/
def regexpIgnoreCase : JsValue → Bool
  | .regexp _ _ _ _ i _ => i
  | _ => false

/-- `re.lastIndex`; only ever read under an `isRegExp` guard. -/
def regexpLastIndex : JsValue → Int
  | .regexp _ _ _ _ _ l => l
  | _ => 0

/-- Lookup of an array-like element by property key: the own index
properties of an array-like value are exactly the canonical decimal
strings `"0"` to `"len-1"`, so the key is compared against each element
position in turn. -/
def indexLookup : List JsValue → Nat → String → JsValue
  | [], _, _ => .undefined
  | v :: rest, i, k => if toString i == k then v else indexLookup rest (i + 1) k

/-- Property access `v[k]`, returning `undefined` for absent members.
Object fields are looked up by key (JavaScript object keys are unique, so
the first binding is the binding). Arrays, arguments objects and strings
expose their indices and `length`. A function exposes its `prototype`
object, modelled as an otherwise empty object identified by the function
ref (function refs and plain-object refs are kept disjoint by convention
in every theorem below). Accessing a property of `null`/`undefined`
throws in JavaScript; the engine never does so (every access is guarded),
and the model returns `undefined` there. -/
def getField (v : JsValue) (k : String) : JsValue :=
  match v with
  | .obj _ fields => ((fields.find? (fun p => p.1 == k)).map Prod.snd).getD .undefined
  | .arr _ el =>
    if k == "length" then .num (.fin el.length)
    else indexLookup el 0 k
  | .args _ el =>
    if k == "length" then .num (.fin el.length)
    else indexLookup el 0 k
  | .str s =>
    if k == "length" then .num (.fin s.length)
    else indexLookup (s.data.map (fun c => .str (String.mk [c]))) 0 k
  | .fn r _ => if k == "prototype" then .obj r [] else .undefined
  | _ => .undefined

/-- `Object.keys(v)`: own enumerable string keys. Plain objects list their
fields in insertion order; arrays, arguments objects and strings list
their indices (their `length` is not enumerable); every other value has
no own enumerable keys. In the modelled runtime `Object.keys` does not
throw on primitives, so the `try`/`catch` around it in `objEquiv` never
fires. -/
def keysOf : JsValue → List String
  | .obj _ fields => fields.map Prod.fst
  | .arr _ el => (List.range el.length).map (fun i => toString i)
  | .args _ el => (List.range el.length).map (fun i => toString i)
  | .str s => (List.range s.data.length).map (fun i => toString i)
  | _ => []

/-- Lexicographic comparison of character lists by code unit, the order
JavaScript uses when comparing strings. -/
def charsLe : List Char → List Char → Bool
  | [], _ => true
  | _ :: _, [] => false
  | a :: as, b :: bs =>
    if a.toNat == b.toNat then charsLe as bs else Nat.blt a.toNat b.toNat

/-- String comparison `a <= b` as used by the default JavaScript sort. -/
def strLe (a b : String) : Bool := charsLe a.data b.data

/-- Insertion of a string into a sorted list, for `sortStrings`. -/
def insertSorted (x : String) : List String → List String
  | [] => [x]
  | y :: rest => if strLe x y then x :: y :: rest else y :: insertSorted x rest

/-- `keys.sort()`: the default JavaScript sort on an array of strings is
lexicographic string comparison; insertion sort produces the same sorted
list. -/
def sortStrings : List String → List String
  | [] => []
  | x :: rest => insertSorted x (sortStrings rest)

/-- The JavaScript logical negation applied to a string: `!s` is true
exactly when the string is falsy, that is, empty. Models the subterm
`!typeOf(b)` at expectacle.js:152. -/
def jsNotOfString (s : String) : Bool := s == ""

/-- Strict inequality (`!==`) between a boolean and a string: operands of
different runtime types are never strictly equal, so the inequality holds
regardless of the operand values. Models the comparison
`!typeOf(b) !== 'arguments'` at expectacle.js:152, whose left operand is
the boolean `!typeOf(b)`. -/
def strictNeqBoolString (_b : Bool) (_s : String) : Bool := true

/-- `Array.prototype.slice.call(v)`: copies an array-like value into a
fresh array (fresh heap ref; the ref is irrelevant because the result is
only consumed by `deepEqual`, which never reaches this code path — see
`objEquivBody`). -/
def sliceCall (v : JsValue) : JsValue :=
  match v with
  | .arr _ el => .arr 1 el
  | .args _ el => .arr 1 el
  | .str s => .arr 1 (s.data.map (fun c => .str (String.mk [c])))
  | _ => .arr 1 []

/-- The body of `objEquiv` (expectacle.js:141-186), parametrised by the
recursive-call handle `recur` standing for `deepEqual`. Order of tests,
following the source: the nullish test; the `a.prototype !== b.prototype`
test; the arguments branch, whose guard `!typeOf(b) !== 'arguments'`
compares a boolean against a string and therefore always succeeds, making
the slice-and-recurse lines 155-157 unreachable (they are nevertheless
modelled faithfully in the dead else branch); then the key comparison:
the source checks `ka.length !== kb.length` and then compares the two
sorted key arrays element by element, which together amount to equality of
the sorted key lists, and finally recurses through every shared key. -/
def objEquivBody (recur : JsValue → JsValue → Bool) (a b : JsValue) : Bool :=
  if isNullish a || isNullish b then false
  else if !(strictEq (getField a "prototype") (getField b "prototype")) then false
  else if typeOf a == "arguments" then
    if strictNeqBoolString (jsNotOfString (typeOf b)) "arguments" then false
    else recur (sliceCall a) (sliceCall b)
  else
    let ka := sortStrings (keysOf a)
    let kb := sortStrings (keysOf b)
    if ka.length != kb.length then false
    else if ka != kb then false
    else ka.all (fun k => recur (getField a k) (getField b k))

/-- The structural equality engine `deepEqual` (expectacle.js:196-213),
with an explicit fuel parameter modelling the finite call stack (the
source has no cycle detection and overflows the stack on cyclic input;
values here are finite trees and `deepEqual` below always supplies
sufficient fuel for them). Order of tests, following the source: strict
equality; the two-dates epoch comparison; the two-regexps field
comparison; the non-composite fallback `actual === expected` (note: the
source uses strict equality here, line 210); otherwise `objEquiv`. -/
def deepEqualF : Nat → JsValue → JsValue → Bool
  | 0, _, _ => false
  | fuel+1, a, b =>
    if strictEq a b then true
    else if isDate a && isDate b then dateGetTime a == dateGetTime b
    else if isRegExp a && isRegExp b then
      regexpSource a == regexpSource b &&
      regexpGlobal a == regexpGlobal b &&
      regexpMultiline a == regexpMultiline b &&
      regexpLastIndex a == regexpLastIndex b &&
      regexpIgnoreCase a == regexpIgnoreCase b
    else if jsTypeof a != "object" && jsTypeof b != "object" then strictEq a b
    else objEquivBody (deepEqualF fuel) a b

mutual

/-- Size of a value tree, used as the fuel bound for `deepEqual`. -/
def jsSize : JsValue → Nat
  | .obj _ fields => 1 + jsSizeFields fields
  | .arr _ el => 1 + jsSizeList el
  | .args _ el => 1 + jsSizeList el
  | _ => 1

/-- Size of a field list. -/
def jsSizeFields : List (String × JsValue) → Nat
  | [] => 0
  | (_, v) :: rest => 1 + jsSize v + jsSizeFields rest

/-- Size of an element list. -/
def jsSizeList : List JsValue → Nat
  | [] => 0
  | v :: rest => 1 + jsSize v + jsSizeList rest

end

/-- `deepEqual(actual, expected)`: runs the engine with fuel bounded by
the sizes of the two finite value trees, which is sufficient because every
recursive call descends into a strictly smaller pair of subvalues. -/
def deepEqual (a b : JsValue) : Bool :=
  deepEqualF (jsSize a + jsSize b) a b

/-- `objEquiv(a, b)` as a stand-alone function (expectacle.js:141). -/
def objEquiv (a b : JsValue) : Bool :=
  objEquivBody deepEqual a b

/-- Decimal rendering of a number, as produced by `Number.prototype.toString`
for integral and non-finite values. -/
def numToString : JsNum → String
  | .nan => "NaN"
  | .inf => "Infinity"
  | .negInf => "-Infinity"
  | .fin i => toString i

/-- `RegExp.prototype.toString`: slash-delimited source followed by the
flags in their canonical order. -/
def regexpToString (source : String) (global multiline ignoreCase : Bool) : String :=
  "/" ++ source ++ "/" ++ (if global then "g" else "") ++
    (if ignoreCase then "i" else "") ++ (if multiline then "m" else "")

/-- Rendering of a date inside the error serializer. The real runtime
renders the calendar form of the timestamp (via `toJSON`/`toString`); no
claim depends on the digits of that rendering, so the model renders the
epoch milliseconds. -/
def dateRender (t : Int) : String := "Date(" ++ toString t ++ ")"

/-- JSON escape of one character. -/
def jsonEscapeChar (c : Char) : String :=
  if c == '"' then "\\\""
  else if c == '\\' then "\\\\"
  else if c == '\n' then "\\n"
  else if c == '\r' then "\\r"
  else if c == '\t' then "\\t"
  else if c.toNat == 8 then "\\b"
  else if c.toNat == 12 then "\\f"
  else if Nat.blt c.toNat 32 then
    "\\u00" ++ String.mk [Nat.digitChar (c.toNat / 16), Nat.digitChar (c.toNat % 16)]
  else String.mk [c]

/-- JSON string literal for a string value. -/
def jsonQuote (s : String) : String :=
  "\"" ++ String.join (s.data.map jsonEscapeChar) ++ "\""

mutual

/-- `JSON.stringify(value, replacer)` with the library replacer
(expectacle.js:440-454): `undefined` becomes the string `"undefined"`,
non-finite numbers, functions and regular expressions become their
`toString` text (a JSON string in the output), dates pass through their
`toJSON` timestamp rendering, and composites serialize recursively. An
arguments object serializes as a plain object keyed by its indices.
Because the replacer turns `undefined` into a string, object members
holding `undefined` are kept rather than dropped. -/
def jsonStringify : JsValue → String
  | .undefined => jsonQuote "undefined"
  | .null => "null"
  | .bool b => if b then "true" else "false"
  | .num (.fin i) => toString i
  | .num n => jsonQuote (numToString n)
  | .str s => jsonQuote s
  | .fn _ src => jsonQuote src
  | .regexp _ source g m i _ => jsonQuote (regexpToString source g m i)
  | .date _ t => jsonQuote (dateRender t)
  | .obj _ fields => "\x7b" ++ jsonFields fields ++ "\x7d"
  | .arr _ el => "[" ++ jsonElems el ++ "]"
  | .args _ el => "\x7b" ++ jsonArgsFields 0 el ++ "\x7d"

/-- Serialization of the members of an object. -/
def jsonFields : List (String × JsValue) → String
  | [] => ""
  | (k, v) :: rest =>
    jsonQuote k ++ ":" ++ jsonStringify v ++
      (if rest.isEmpty then "" else ",") ++ jsonFields rest

/-- Serialization of the elements of an array. -/
def jsonElems : List JsValue → String
  | [] => ""
  | v :: rest =>
    jsonStringify v ++ (if rest.isEmpty then "" else ",") ++ jsonElems rest

/-- Serialization of an arguments object as index-keyed members. -/
def jsonArgsFields : Nat → List JsValue → String
  | _, [] => ""
  | i, v :: rest =>
    jsonQuote (toString i) ++ ":" ++ jsonStringify v ++
      (if rest.isEmpty then "" else ",") ++ jsonArgsFields (i + 1) rest

end

mutual

/-- The `String(v)` conversion used by template literals: `undefined` and
`null` print their names, arrays join their elements with commas (where a
`null`/`undefined` element prints as the empty string), other objects
print their class tag. Dates print through `dateRender` (calendar digits
are irrelevant to every claim below). -/
def jsToString : JsValue → String
  | .undefined => "undefined"
  | .null => "null"
  | .bool b => if b then "true" else "false"
  | .num n => numToString n
  | .str s => s
  | .fn _ src => src
  | .regexp _ source g m i _ => regexpToString source g m i
  | .date _ t => dateRender t
  | .obj _ _ => "[object Object]"
  | .args _ _ => "[object Arguments]"
  | .arr _ el => jsArrayJoin el

/-- `Array.prototype.join(",")` element conversion and concatenation. -/
def jsArrayJoin : List JsValue → String
  | [] => ""
  | v :: rest =>
    (match v with
     | .undefined => ""
     | .null => ""
     | w => jsToString w) ++ (if rest.isEmpty then "" else ",") ++ jsArrayJoin rest

end

/-- The element conversion of `Array.prototype.join`: `null` and
`undefined` convert to the empty string, everything else through
`String(v)`. -/
def jsJoinString : JsValue → String
  | .undefined => ""
  | .null => ""
  | v => jsToString v

/-- `array.join(' ')` over already-converted element strings. -/
def joinSpace : List String → String
  | [] => ""
  | [x] => x
  | x :: rest => x ++ " " ++ joinSpace rest

/-- The sentinel `NULL_VALUE` (expectacle.js:46): a fixed empty object
used as the stand-in for values that were not supplied. Its heap ref 0 is
reserved for it throughout. -/
def NULL_VALUE : JsValue := .obj 0 []

/-- The options record accepted by the `ExpectationError` constructor; a
field that the caller did not set is `undefined`. The `stackFn` option
only anchors stack-trace capture and has no observable rendering, so it
is not modelled. -/
structure ErrorOptions where
  operator : JsValue := .undefined
  actual : JsValue := .undefined
  expected : JsValue := .undefined
  description : JsValue := .undefined
  message : JsValue := .undefined

/-- The observable state of a constructed `ExpectationError`
(expectacle.js:415-428): the `name`, the five option-derived fields, and
the `message` computed at construction time. -/
structure ExpectationError where
  name : String
  operator : JsValue
  actual : JsValue
  expected : JsValue
  description : JsValue
  message : JsValue

/-- The long rendering form of `ExpectationError.prototype.toString`
(expectacle.js:465-473): the five parts joined with single spaces, with
the expected slot blank exactly when `expected` is the `NULL_VALUE`
sentinel, and `actual`/`expected` serialized through the JSON replacer. -/
def longForm (name : String) (description actual operator expected : JsValue) : String :=
  joinSpace [name ++ ": Expected",
    jsJoinString description,
    jsonStringify actual,
    jsJoinString operator,
    if strictEq expected NULL_VALUE then "" else jsonStringify expected]

/-- The `ExpectationError` constructor (expectacle.js:415-428): copies the
option fields, then sets `message` to `options.message || this.toString()`.
At that point the instance has no own `message` yet (the prototype
supplies the empty string), so the fallback `toString()` call takes the
long rendering form, which already begins with the error name. -/
def mkExpectationError (o : ErrorOptions) : ExpectationError :=
  { name := "ExpectationError"
    operator := o.operator
    actual := o.actual
    expected := o.expected
    description := o.description
    message :=
      if jsTruthy o.message then o.message
      else .str (longForm "ExpectationError" o.description o.actual o.operator o.expected) }

/-- `ExpectationError.prototype.toString` (expectacle.js:461-474) applied
to a constructed error: when `message` is truthy the result is
`name ++ ": " ++ message`, otherwise the long form. -/
def expectationErrorToString (e : ExpectationError) : String :=
  if jsTruthy e.message then e.name ++ ": " ++ jsToString e.message
  else longForm e.name e.description e.actual e.operator e.expected

/-- A word character in the sense of the regular-expression class used by
`makeHumanReadable`. -/
def isWordChar (c : Char) : Bool := c.isAlphanum || c == '_'

/-- The first step of `makeHumanReadable`: replace every uppercase letter
with a space followed by its lowercase form. -/
def lowercaseExpand (cs : List Char) : List Char :=
  cs.flatMap (fun c => if c.isUpper then [' ', c.toLower] else [c])

/-- The second step of `makeHumanReadable`: the global replacement of the
pattern nonword-n-a-nonword-n with a space followed by NaN, scanning left
to right and continuing after each replacement, as a regular-expression
global replace does. The scan consumes at least one character per step,
so the input length bounds the number of steps. -/
def fixNaNGo : Nat → List Char → List Char
  | 0, cs => cs
  | _ + 1, [] => []
  | f + 1, c1 :: cs =>
    match cs with
    | 'n' :: 'a' :: c2 :: 'n' :: rest =>
      if !isWordChar c1 && !isWordChar c2 then
        ' ' :: 'N' :: 'a' :: 'N' :: fixNaNGo f rest
      else c1 :: fixNaNGo f cs
    | _ => c1 :: fixNaNGo f cs

/-- The NaN repair pass over a whole character list. -/
def fixNaN (cs : List Char) : List Char := fixNaNGo cs.length cs

/-- `makeHumanReadable` (expectacle.js:576-582): camel case to
space-separated lowercase words, with the NaN artifact repaired. -/
def makeHumanReadable (s : String) : String :=
  String.mk (fixNaN (lowercaseExpand s.data))

/-- An expectation view (expectacle.js:491-497): the wrapped actual value
and the description. -/
structure Expectation where
  mkE ::
  jsActual : JsValue
  jsDescription : JsValue

/-- A reversed expectation view (expectacle.js:522-525): structurally the
same fields; every matcher installed on it runs with inverted polarity. -/
structure ReversedExpectation where
  mkR ::
  jsActual : JsValue
  jsDescription : JsValue

/-- The entry point `expect(actual, description)` (expectacle.js:1253). -/
def expect (actual description : JsValue) : Expectation :=
  { jsActual := actual, jsDescription := description }

/-- The `not` getter (expectacle.js:499-501): constructs
`new ReversedExpectation(this._actual)` — the constructor takes a second
`description` parameter, but the getter does not pass it, so the reversed
view carries `undefined` as its description. The lazy caching in `_not`
is observationally irrelevant in the pure model. -/
def notGetter (e : Expectation) : ReversedExpectation :=
  { jsActual := e.jsActual, jsDescription := .undefined }

/-- The observable behaviour of one checker invocation: the raw value the
checker returned (coerced by `!!` at the dispatch site), the final value
passed to `setExpected` if the checker called it, and the record passed
to `setErrorProperties` if the checker called it (the empty list when it
did not, matching the initial empty object). -/
structure MatcherRun where
  result : JsValue
  expectedSet : Option JsValue := none
  errProps : List (String × JsValue) := []

/-- Lookup in an assignment record: `objectAssign` copies bindings in
order, so a later binding for the same key overwrites an earlier one. -/
def lookupProp (props : List (String × JsValue)) (k : String) : Option JsValue :=
  (props.reverse.find? (fun p => p.1 == k)).map Prod.snd

/-- The outcome of a matcher call: either the chain-continuation object
`\x7b and: this \x7d` carrying the very expectation it was invoked on, or
the thrown `ExpectationError`. -/
inductive MatchOutcome where
  | success (andTarget : Expectation)
  | failure (err : ExpectationError)

/-- The operator field of a failure outcome (`undefined` on success). -/
def matchOutcomeOperator : MatchOutcome → JsValue
  | .success _ => .undefined
  | .failure e => e.operator

/-- `applyMatcher` (expectacle.js:605-633). The `expected` slot starts as
the supplied argument, or `NULL_VALUE` when the call site passed no
argument (arity test), and is replaced by the final `setExpected` value
if the checker called it. Success is `!!result !== asNot` and returns the
chain object holding the expectation itself. Failure throws an
`ExpectationError` built from the base options (description, the
negation-prefixed humanized name, the actual value, the expected slot)
overlaid by whatever record the checker passed to `setErrorProperties`
via `objectAssign`. The `stackFn` entry is not modelled (it has no
observable effect beyond stack-trace cosmetics). The invocation on a
`ReversedExpectation` is this same function bound with `asNot = true`
(expectacle.js:677-682); the fields of both views are identical, so the
view is passed here as an `Expectation`. -/
def applyMatcher (self : Expectation) (name : String) (asNot : Bool)
    (argSupplied : Bool) (value : JsValue) (run : MatcherRun) : MatchOutcome :=
  let expected := run.expectedSet.getD (if argSupplied then value else NULL_VALUE)
  if jsTruthy run.result != asNot then
    .success self
  else
    .failure (mkExpectationError
      { description := (lookupProp run.errProps "description").getD self.jsDescription
        operator := (lookupProp run.errProps "operator").getD
          (.str ((if asNot then "not " else "") ++ makeHumanReadable name))
        actual := (lookupProp run.errProps "actual").getD self.jsActual
        expected := (lookupProp run.errProps "expected").getD expected
        message := (lookupProp run.errProps "message").getD .undefined })

/-- A constructed promised expectation (expectacle.js:527-536): the
wrapped promise (the constructor wraps the input in `Promise.resolve`,
modelled by the input itself) and the description. -/
structure PromisedExpectation where
  mkP ::
  jsPromise : JsValue
  jsDescription : JsValue

/-- The `PromisedExpectation` constructor (expectacle.js:527-536), the
function behind `expect.promised`: values that are falsy or whose `then`
member is not a function are rejected synchronously with a `TypeError`
carrying the message given here, modelled as the error branch; every
other value is wrapped without throwing. -/
def promisedExpectation (actual description : JsValue) : Except String PromisedExpectation :=
  if !jsTruthy actual || typeOf (getField actual "then") != "function" then
    .error "Expected a promise."
  else
    .ok { jsPromise := actual, jsDescription := description }

/-- `expect.fail` (expectacle.js:1281-1286): unconditionally throws an
`ExpectationError` whose options carry `message || 'Force failed.'` and
nothing else; the returned record is the thrown error. -/
def expectFail (message : JsValue) : ExpectationError :=
  mkExpectationError
    { message := if jsTruthy message then message else .str "Force failed." }

/-- A compiled `Shape` (expectacle.js:215-218): the pair of a derived name
and a checker, defunctionalized over the closed set of checkers the
library builds. `typeShape` is a per-type shape from `addTypeShape`
(expectacle.js:226-233); `literal` is `InternalShapes.Literal`
(expectacle.js:366-372); `objectShape` is `InternalShapes.Object`
(expectacle.js:323-364), storing the coerced sub-shape of every
descriptor key; `arrayStructure` is `InternalShapes.ArrayStructure`
(expectacle.js:275-319), storing the captured `types` array as it stands
after the construction loop: `Sum.inl` entries are elements the loop
replaced by (or found to be) compiled shapes, `Sum.inr` entries are the
non-composite descriptor elements the loop left in place (for those the
loop builds a `Literal` only for the name and does not write it back). -/
inductive ShapeDesc where
  | typeShape (name tag : String)
  | literal (v : JsValue)
  | objectShape (fields : List (String × ShapeDesc))
  | arrayStructure (types : List (ShapeDesc ⊕ JsValue))

/-- A shape-descriptor value: the values a caller may pass to the shape
constructors. `shape` is a compiled `Shape` instance; `obj` and `arr` are
the raw composite descriptors (which the constructors coerce); `prim` is
any other value (by the representation invariant, `prim` never holds a
value whose library type tag is `object` or `array` — those are
represented by the dedicated constructors). -/
inductive SVal where
  | prim (v : JsValue)
  | shape (s : ShapeDesc)
  | obj (fields : List (String × SVal))
  | arr (elems : List SVal)

/-- The library type tag of a shape-descriptor value: `Shape` instances
are plain objects at runtime and therefore tag as `object`. -/
def svalTypeOf : SVal → String
  | .prim v => typeOf v
  | .shape _ => "object"
  | .obj _ => "object"
  | .arr _ => "array"

/-- Truthiness of a shape-descriptor value. -/
def svalTruthy : SVal → Bool
  | .prim v => jsTruthy v
  | _ => true

/-- `addTypeShape(name)` (expectacle.js:226-233): the shape named after a
type whose checker compares the library type tag against the lowercased
name. -/
def addTypeShape (name : String) : ShapeDesc := .typeShape name name.toLower

mutual

/-- The descriptor coercion switch of `InternalShapes.Object`
(expectacle.js:331-346): a `Shape` instance is kept, a raw object
descriptor compiles to an `Object` shape, a raw array descriptor compiles
to an `ArrayStructure` shape (propagating the empty-descriptor error),
and any other value becomes a `Literal` shape. -/
def coerceDescriptor : SVal → Except String ShapeDesc
  | .shape s => .ok s
  | .obj fs =>
    match objectFieldsShapes fs with
    | .error e => .error e
    | .ok l => .ok (.objectShape l)
  | .arr es =>
    if es.isEmpty then .error "Empty types parameter"
    else
      match arrayStructureElems es with
      | .error e => .error e
      | .ok l => .ok (.arrayStructure l)
  | .prim v => .ok (.literal v)

/-- The key loop of `InternalShapes.Object` (expectacle.js:327-349): each
own descriptor key is paired with the coerced sub-shape; a construction
error aborts the whole construction (the underlying exception
propagates). -/
def objectFieldsShapes : List (String × SVal) → Except String (List (String × ShapeDesc))
  | [] => .ok []
  | (k, d) :: rest =>
    match coerceDescriptor d with
    | .error e => .error e
    | .ok s =>
      match objectFieldsShapes rest with
      | .error e => .error e
      | .ok l => .ok ((k, s) :: l)

/-- One element of the `InternalShapes.ArrayStructure` loop
(expectacle.js:285-305): a `Shape` instance is kept as it is; a raw
object or array descriptor is compiled and written back over the element
(`types[i] = type`); any other element is left in place (the `Literal`
built for it contributes only to the shape name). -/
def structElemOf : SVal → Except String (ShapeDesc ⊕ JsValue)
  | .shape s => .ok (.inl s)
  | .obj fs =>
    match objectFieldsShapes fs with
    | .error e => .error e
    | .ok l => .ok (.inl (.objectShape l))
  | .arr es =>
    if es.isEmpty then .error "Empty types parameter"
    else
      match arrayStructureElems es with
      | .error e => .error e
      | .ok l => .ok (.inl (.arrayStructure l))
  | .prim v => .ok (.inr v)

/-- The whole `InternalShapes.ArrayStructure` loop over the `types`
array. -/
def arrayStructureElems : List SVal → Except String (List (ShapeDesc ⊕ JsValue))
  | [] => .ok []
  | t :: rest =>
    match structElemOf t with
    | .error e => .error e
    | .ok el =>
      match arrayStructureElems rest with
      | .error e => .error e
      | .ok l => .ok (el :: l)

end

/-- The element as it stands in the `types` array after the construction
loop. -/
def structElemToSVal : ShapeDesc ⊕ JsValue → SVal
  | .inl s => .shape s
  | .inr v => .prim v

/-- `InternalShapes.ArrayStructure(types)` (expectacle.js:275-319),
returning both the compiled shape and the state of the caller-supplied
`types` array after the call (the construction loop mutates the array in
place). The non-array-parameter throw of line 276 is not representable
here because the input is typed as a list; the empty-parameter throw of
line 279 is the error branch. -/
def arrayStructureRun (types : List SVal) : Except String (ShapeDesc × List SVal) :=
  if types.isEmpty then .error "Empty types parameter"
  else
    match arrayStructureElems types with
    | .error e => .error e
    | .ok els => .ok (.arrayStructure els, els.map structElemToSVal)

/-- `InternalShapes.Object(descriptor)` (expectacle.js:323-364): the shape
whose checker validates every descriptor key through its coerced
sub-shape. A falsy descriptor is replaced by the empty one in the source;
the descriptor is supplied here directly as its field list. -/
def objectShapeOf (fields : List (String × SVal)) : Except String ShapeDesc :=
  match objectFieldsShapes fields with
  | .error e => .error e
  | .ok l => .ok (.objectShape l)

/-- `compareShape` applied to an element the `ArrayStructure` loop left in
place, that is, a value that is neither a `Shape` instance nor a raw
object or array descriptor (expectacle.js:390-406): a falsy value fails
the `!shape` test and a truthy one falls into the default switch branch;
either way the comparison is false. -/
def compareShapeNonComposite (sv : JsValue) : Bool :=
  if !jsTruthy sv then false
  else false

mutual

/-- The checker of a compiled shape (the `checker` closures built at
expectacle.js:229-231, 254-267 analogue, 307-317, 351-362, 368-371): a
type shape compares the type tag; a literal shape requires strict
identity; an object shape requires the candidate to tag as `object` and
every descriptor key to check recursively against the corresponding
member; an array-structure shape requires the candidate to tag as `array`
and validates position by position against the captured `types` array
(positions beyond the candidate length read as `undefined`). -/
def shapeCheck : ShapeDesc → JsValue → Bool
  | .typeShape _ tag, v => typeOf v == tag
  | .literal lv, v => strictEq lv v
  | .objectShape fields, v =>
    if typeOf v != "object" then false
    else shapeFieldsCheck fields v
  | .arrayStructure els, v =>
    if typeOf v != "array" then false
    else structElemsCheck els v 0

/-- The key loop of the `Object` shape checker (expectacle.js:355-360):
the stored sub-shapes are `Shape` instances, so the `compareShape` call
on them is exactly the checker invocation. -/
def shapeFieldsCheck : List (String × ShapeDesc) → JsValue → Bool
  | [], _ => true
  | (k, s) :: rest, v => shapeCheck s (getField v k) && shapeFieldsCheck rest v

/-- The position loop of the `ArrayStructure` shape checker
(expectacle.js:311-316): `compareShape(types[i], object[i])`, where a
compiled-shape entry runs its checker and a left-in-place non-composite
entry always compares false. -/
def structElemsCheck : List (ShapeDesc ⊕ JsValue) → JsValue → Nat → Bool
  | [], _, _ => true
  | .inl s :: rest, v, i =>
    shapeCheck s (getField v (toString i)) && structElemsCheck rest v (i + 1)
  | .inr sv :: rest, v, i =>
    compareShapeNonComposite sv && structElemsCheck rest v (i + 1)

end

/-- `compareShape(shape, object)` (expectacle.js:390-406): a falsy shape
argument compares false; a `Shape` instance runs its checker; a raw
object or array descriptor is compiled on the fly (propagating any
construction error as the thrown exception); anything else compares
false. -/
def compareShape (shape : SVal) (object : JsValue) : Except String Bool :=
  if !svalTruthy shape then .ok false
  else
    match shape with
    | .shape s => .ok (shapeCheck s object)
    | .obj fs =>
      match objectShapeOf fs with
      | .error e => .error e
      | .ok s => .ok (shapeCheck s object)
    | .arr es =>
      match arrayStructureRun es with
      | .error e => .error e
      | .ok p => .ok (shapeCheck p.1 object)
    | .prim _ => .ok false

mutual

/-- The derived name of a compiled shape (expectacle.js:268-271, 306, 350,
367). -/
def shapeName : ShapeDesc → String
  | .typeShape name _ => name
  | .literal v => "Literal.<" ++ jsonStringify v ++ ">"
  | .objectShape fields => "Object.\x7b" ++ shapeFieldNames fields ++ "\x7d"
  | .arrayStructure els => "Array.[" ++ structElemNames els ++ "]"

/-- The `key:name` list inside an `Object` shape name. -/
def shapeFieldNames : List (String × ShapeDesc) → String
  | [] => ""
  | (k, s) :: rest =>
    k ++ ":" ++ shapeName s ++ (if rest.isEmpty then "" else ", ") ++ shapeFieldNames rest

/-- The element-name list inside an `ArrayStructure` shape name: a
left-in-place element contributes the name of the `Literal` shape the
loop built for it. -/
def structElemNames : List (ShapeDesc ⊕ JsValue) → String
  | [] => ""
  | .inl s :: rest =>
    shapeName s ++ (if rest.isEmpty then "" else ", ") ++ structElemNames rest
  | .inr v :: rest =>
    "Literal.<" ++ jsonStringify v ++ ">" ++ (if rest.isEmpty then "" else ", ") ++
      structElemNames rest

end

/-! Helper lemmas. -/

/-- Every value tree has positive size. -/
theorem jsSize_pos (v : JsValue) : 1 ≤ jsSize v := by
  cases v <;> simp [jsSize]

/-- Strict equality is reflexive on every value except `NaN`. -/
theorem strictEq_refl (a : JsValue) (h : a ≠ .num .nan) : strictEq a a = true := by
  cases a with
  | num n =>
    cases n with
    | nan => exact absurd rfl h
    | inf => rfl
    | negInf => rfl
    | fin i => simp [strictEq, numStrictEq]
  | _ => simp [strictEq]

/-- A value whose `typeof` is not `object` is not a date. -/
theorem isDate_eq_false {a : JsValue} (ha : jsTypeof a ≠ "object") : isDate a = false := by
  cases a <;> first | rfl | exact absurd rfl ha

/-- A value whose `typeof` is not `object` is not a regexp. -/
theorem isRegExp_eq_false {a : JsValue} (ha : jsTypeof a ≠ "object") : isRegExp a = false := by
  cases a <;> first | rfl | exact absurd rfl ha

/-! Claim theorems. -/

/-- C1, counterexample. The claim states that for non-composite operands
the engine falls back to loose, type-coercing equality, so that
`deepEqual(1, "1")` and `deepEqual(0, false)` are true; on the code both
evaluate to false. -/
theorem c1_loose_fallback_counterexample :
    deepEqual (.num (.fin 1)) (.str "1") = false ∧
    deepEqual (.num (.fin 0)) (.bool false) = false :=
  ⟨rfl, rfl⟩

/-- C1, amended. When neither operand is a composite (`typeof` is not
`object` for both, which also rules the date and regexp special cases
out), `deepEqual` returns the strict (`===`) comparison of the operands,
not the loose one: expectacle.js:210 reads `return actual === expected`. -/
theorem c1_noncomposite_fallback_is_strict (a b : JsValue)
    (ha : jsTypeof a ≠ "object") (hb : jsTypeof b ≠ "object") :
    deepEqual a b = strictEq a b := by
  have h1 := jsSize_pos a
  have h2 := jsSize_pos b
  obtain ⟨k, hk⟩ : ∃ k, jsSize a + jsSize b = k + 1 :=
    ⟨jsSize a + jsSize b - 1, by omega⟩
  unfold deepEqual
  rw [hk]
  have hda : isDate a = false := isDate_eq_false ha
  have hra : isRegExp a = false := isRegExp_eq_false ha
  have hta : (jsTypeof a != "object") = true := by simp [bne_iff_ne]; exact ha
  have htb : (jsTypeof b != "object") = true := by simp [bne_iff_ne]; exact hb
  simp only [deepEqualF, hda, hra, hta, htb, Bool.false_and, Bool.true_and,
    Bool.and_self, if_false]
  cases hse : strictEq a b <;> simp [hse]

/-- C1, witness for the amended theorem at the concrete pair `1` and
`"1"`. -/
theorem c1_noncomposite_fallback_is_strict_witness :
    deepEqual (.num (.fin 1)) (.str "1") = strictEq (.num (.fin 1)) (.str "1") :=
  c1_noncomposite_fallback_is_strict (.num (.fin 1)) (.str "1")
    (by decide) (by decide)

/-- C2, counterexample. The claim states reflexivity of `deepEqual` with
no restriction on the value; at `NaN` — a value, and a non-finite number —
`deepEqual(NaN, NaN)` evaluates to false on the code (strict equality
fails, both operands are non-composite, and the fallback is strict
equality again). -/
theorem c2_reflexivity_counterexample :
    deepEqual (.num .nan) (.num .nan) = false :=
  rfl

/-- C2, amended. `deepEqual(a, a)` is true for every value `a` other than
`NaN`: the leading `actual === expected` test succeeds for any value that
is strictly equal to itself, which is every value except `NaN`. -/
theorem c2_reflexivity_except_nan (a : JsValue) (h : a ≠ .num .nan) :
    deepEqual a a = true := by
  have h1 := jsSize_pos a
  obtain ⟨k, hk⟩ : ∃ k, jsSize a + jsSize a = k + 1 :=
    ⟨jsSize a + jsSize a - 1, by omega⟩
  unfold deepEqual
  rw [hk]
  simp only [deepEqualF, strictEq_refl a h, if_true]

/-- C2, witness for the amended theorem at a composite value holding
`NaN` inside (the same heap reference on both sides). -/
theorem c2_reflexivity_except_nan_witness :
    deepEqual (.obj 3 [("x", .num .nan)]) (.obj 3 [("x", .num .nan)]) = true :=
  c2_reflexivity_except_nan (.obj 3 [("x", .num .nan)]) (by simp)

/-- C3. The claim states that an arguments pseudo-array is normalized to
array form and compared element-wise, so that it deep-equals an array or
another arguments object holding the same elements. On the code the guard
`!typeOf(b) !== 'arguments'` (expectacle.js:152) compares the boolean
`!typeOf(b)` against a string, which always holds, so `objEquiv` returns
false for every arguments-tagged left operand and the normalization on
lines 155-157 is unreachable: `deepEqual` on an arguments object against
an equal-element array, or against a distinct equal-element arguments
object, is false. With the array on the left the arguments branch is
skipped and the key-wise comparison succeeds, exhibiting the asymmetry. -/
theorem c3_arguments_normalization_dead :
    deepEqual (.args 1 [.num (.fin 1)]) (.arr 2 [.num (.fin 1)]) = false ∧
    deepEqual (.args 1 [.num (.fin 1)]) (.args 2 [.num (.fin 1)]) = false ∧
    deepEqual (.arr 2 [.num (.fin 1)]) (.args 1 [.num (.fin 1)]) = true :=
  ⟨rfl, rfl, rfl⟩

/-- C4, counterexample. The claim states that the negated view reached
through the `not` getter wraps the same description as the positive
expectation; on the code the getter constructs
`new ReversedExpectation(this._actual)` without the description, so for
`expect(1, "desc")` the negated view carries `undefined` where the
positive view carries `"desc"`. -/
theorem c4_not_description_counterexample :
    (notGetter (expect (.num (.fin 1)) (.str "desc"))).jsDescription = .undefined ∧
    (expect (.num (.fin 1)) (.str "desc")).jsDescription = .str "desc" ∧
    JsValue.undefined ≠ .str "desc" :=
  ⟨rfl, rfl, by simp⟩

/-- C4, amended. The negated view reached through the `not` getter wraps
the same actual value as the positive expectation, but not its
description: the getter omits the constructor's description argument, so
the negated view's description is always `undefined`, and a failure
raised through the negated view consequently carries an `undefined`
description. -/
theorem c4_not_preserves_actual_only (x d : JsValue) :
    (notGetter (expect x d)).jsActual = x ∧
    (notGetter (expect x d)).jsDescription = .undefined :=
  ⟨rfl, rfl⟩

/-- Pointwise description of a successful `ArrayStructure` construction
loop: the output has one entry per input element, and each output entry
is the `structElemOf` image of the input element at the same position. -/
theorem arrayStructureElems_spec :
    ∀ (ts : List SVal) (els : List (ShapeDesc ⊕ JsValue)),
      arrayStructureElems ts = .ok els →
      els.length = ts.length ∧
      ∀ i, i < ts.length →
        ∃ t el, ts[i]? = some t ∧ els[i]? = some el ∧ structElemOf t = .ok el := by
  intro ts
  induction ts with
  | nil =>
    intro els h
    simp only [arrayStructureElems] at h
    cases h
    exact ⟨rfl, fun i hi => absurd hi (by simp)⟩
  | cons t rest ih =>
    intro els h
    rw [arrayStructureElems] at h
    cases hso : structElemOf t with
    | error e => rw [hso] at h; cases h
    | ok el =>
      rw [hso] at h
      cases har : arrayStructureElems rest with
      | error e => rw [har] at h; cases h
      | ok l =>
        rw [har] at h
        cases h
        obtain ⟨hlen, hpt⟩ := ih l har
        refine ⟨by simp [hlen], fun i hi => ?_⟩
        cases i with
        | zero => exact ⟨t, el, by simp, by simp, hso⟩
        | succ j =>
          have hj : j < rest.length := by simpa using hi
          obtain ⟨t2, el2, h1, h2, h3⟩ := hpt j hj
          exact ⟨t2, el2, by simpa using h1, by simpa using h2, h3⟩

/-- C5, counterexample. The claim states that `ArrayStructure` does not
mutate its input descriptor array; on the code the construction loop
executes `types[i] = type` for a plain-object element, replacing it with
the compiled `Shape` instance: after
`expect.shape.ArrayStructure([{x: 1}])` the single element of the input
array is a `Shape`, not the original object. -/
theorem c5_array_structure_mutation_counterexample :
    arrayStructureRun [SVal.obj [("x", SVal.prim (.num (.fin 1)))]] =
      .ok (.arrayStructure [.inl (.objectShape [("x", .literal (.num (.fin 1)))])],
           [SVal.shape (.objectShape [("x", .literal (.num (.fin 1)))])]) ∧
    SVal.shape (.objectShape [("x", .literal (.num (.fin 1)))]) ≠
      SVal.obj [("x", SVal.prim (.num (.fin 1)))] :=
  ⟨rfl, by simp⟩

/-- C5, amended. A successful `ArrayStructure(ts)` call leaves elements
of `ts` that are already `Shape` instances, and elements that are neither
objects nor arrays, untouched, but overwrites every plain-object element
with its compiled `Object` shape and every array element with its
compiled `ArrayStructure` shape (`types[i] = type` in the construction
loop): construction is pure in its observable checking behaviour but not
free of mutation of the descriptor array. -/
theorem c5_array_structure_mutation (types : List SVal) (sh : ShapeDesc)
    (types2 : List SVal) (h : arrayStructureRun types = .ok (sh, types2)) :
    types2.length = types.length ∧
    ∀ i, i < types.length →
      (∀ s, types[i]? = some (SVal.shape s) → types2[i]? = some (SVal.shape s)) ∧
      (∀ v, types[i]? = some (SVal.prim v) → types2[i]? = some (SVal.prim v)) ∧
      (∀ fs, types[i]? = some (SVal.obj fs) →
        ∃ l, objectFieldsShapes fs = .ok l ∧
          types2[i]? = some (SVal.shape (.objectShape l))) ∧
      (∀ es, types[i]? = some (SVal.arr es) →
        ∃ l, arrayStructureElems es = .ok l ∧
          types2[i]? = some (SVal.shape (.arrayStructure l))) := by
  unfold arrayStructureRun at h
  by_cases he : types.isEmpty
  · rw [if_pos he] at h; cases h
  · rw [if_neg he] at h
    cases hel : arrayStructureElems types with
    | error e => rw [hel] at h; cases h
    | ok els =>
      rw [hel] at h
      cases h
      obtain ⟨hlen, hpt⟩ := arrayStructureElems_spec types els hel
      refine ⟨by simp [hlen], fun i hi => ?_⟩
      obtain ⟨t, el, hts, hels, hso⟩ := hpt i hi
      have hmap : (els.map structElemToSVal)[i]? = some (structElemToSVal el) := by
        rw [List.getElem?_map, hels]; rfl
      refine ⟨?_, ?_, ?_, ?_⟩
      · intro s hs
        rw [hts] at hs; cases hs
        rw [structElemOf] at hso; cases hso
        simpa [structElemToSVal] using hmap
      · intro v hv
        rw [hts] at hv; cases hv
        rw [structElemOf] at hso; cases hso
        simpa [structElemToSVal] using hmap
      · intro fs hfs
        rw [hts] at hfs; cases hfs
        rw [structElemOf] at hso
        cases hof : objectFieldsShapes fs with
        | error e => rw [hof] at hso; cases hso
        | ok l =>
          rw [hof] at hso; cases hso
          exact ⟨l, rfl, by simpa [structElemToSVal] using hmap⟩
      · intro es hes
        rw [hts] at hes; cases hes
        rw [structElemOf] at hso
        by_cases hee : es.isEmpty
        · rw [if_pos hee] at hso; cases hso
        · rw [if_neg hee] at hso
          cases hae : arrayStructureElems es with
          | error e => rw [hae] at hso; cases hso
          | ok l =>
            rw [hae] at hso; cases hso
            exact ⟨l, rfl, by simpa [structElemToSVal] using hmap⟩

/-- C5, witness for the amended theorem: a two-element descriptor with a
non-composite first element (left in place) and a plain-object second
element (overwritten by its compiled shape). -/
theorem c5_array_structure_mutation_witness :
    ([SVal.prim (.num (.fin 5)),
      SVal.shape (.objectShape [("x", .literal (.num (.fin 1)))])] : List SVal)[0]? =
      some (SVal.prim (.num (.fin 5))) :=
  ((c5_array_structure_mutation
      [SVal.prim (.num (.fin 5)), SVal.obj [("x", SVal.prim (.num (.fin 1)))]]
      (.arrayStructure [.inr (.num (.fin 5)),
        .inl (.objectShape [("x", .literal (.num (.fin 1)))])])
      [SVal.prim (.num (.fin 5)),
        SVal.shape (.objectShape [("x", .literal (.num (.fin 1)))])]
      rfl).2 0 (by decide)).2.1 (.num (.fin 5)) rfl

/-- The key loop of a compiled `Object` shape checker, related back to the
descriptor it was compiled from: the stored sub-shapes all pass exactly
when every descriptor entry's coerced sub-shape accepts the corresponding
member of the candidate. -/
theorem shapeFieldsCheck_iff (v : JsValue) :
    ∀ (D : List (String × SVal)) (l : List (String × ShapeDesc)),
      objectFieldsShapes D = .ok l →
      (shapeFieldsCheck l v = true ↔
        ∀ p ∈ D, ∀ s, coerceDescriptor p.2 = .ok s →
          shapeCheck s (getField v p.1) = true) := by
  intro D
  induction D with
  | nil =>
    intro l h
    simp only [objectFieldsShapes] at h
    cases h
    simp [shapeFieldsCheck]
  | cons p rest ih =>
    obtain ⟨k, d⟩ := p
    intro l h
    rw [objectFieldsShapes] at h
    cases hcd : coerceDescriptor d with
    | error e => rw [hcd] at h; cases h
    | ok s0 =>
      rw [hcd] at h
      cases hrest : objectFieldsShapes rest with
      | error e => rw [hrest] at h; cases h
      | ok l2 =>
        rw [hrest] at h
        cases h
        rw [shapeFieldsCheck]
        rw [Bool.and_eq_true]
        constructor
        · rintro ⟨hb1, hb2⟩ q hq s hs
          rcases List.mem_cons.mp hq with hq1 | hq2
          · subst hq1
            simp only at hs
            rw [hcd] at hs
            cases hs
            exact hb1
          · exact ((ih l2 hrest).mp hb2) q hq2 s hs
        · intro hall
          refine ⟨hall (k, d) (List.mem_cons_self _ _) s0 hcd, ?_⟩
          exact (ih l2 hrest).mpr
            (fun q hq s hs => hall q (List.mem_cons_of_mem _ hq) s hs)

/-- C6. A compiled `Object(D)` shape accepts a candidate exactly when the
candidate's type tag is `object` and, for every key of the descriptor,
the sub-shape coerced from the descriptor entry accepts the corresponding
member of the candidate (an absent member reads as `undefined`); keys of
the candidate that do not appear in the descriptor play no role, and any
candidate whose tag is not `object` is rejected. -/
theorem c6_object_shape_subset_match (D : List (String × SVal)) (v : JsValue)
    (sh : ShapeDesc) (h : objectShapeOf D = .ok sh) :
    shapeCheck sh v = true ↔
      (typeOf v = "object" ∧
        ∀ p ∈ D, ∀ s, coerceDescriptor p.2 = .ok s →
          shapeCheck s (getField v p.1) = true) := by
  unfold objectShapeOf at h
  cases hof : objectFieldsShapes D with
  | error e => rw [hof] at h; cases h
  | ok l =>
    rw [hof] at h
    cases h
    rw [shapeCheck]
    by_cases ht : typeOf v = "object"
    · have hcond : (typeOf v != "object") = false := by simp [ht]
      rw [hcond, if_neg (by simp)]
      rw [shapeFieldsCheck_iff v D l hof]
      simp [ht]
    · have hcond : (typeOf v != "object") = true := by simp [bne_iff_ne]; exact ht
      rw [hcond, if_pos rfl]
      simp [ht]

/-- C6, witness: a two-key candidate against a one-key descriptor — the
declared key checks through its coerced shape and the extra key is
ignored. -/
theorem c6_object_shape_subset_match_witness :
    shapeCheck (.objectShape [("x", .typeShape "Number" "number")])
      (JsValue.obj 5 [("x", .num (.fin 3)), ("y", .str "extra")]) = true :=
  (c6_object_shape_subset_match [("x", SVal.shape (.typeShape "Number" "number"))]
      (JsValue.obj 5 [("x", .num (.fin 3)), ("y", .str "extra")])
      (.objectShape [("x", .typeShape "Number" "number")]) rfl).mpr
    ⟨rfl, by
      intro p hp s hs
      simp only [List.mem_singleton] at hp
      subst hp
      simp only [coerceDescriptor] at hs
      cases hs
      rfl⟩

/-- C7, counterexample. The claim states that every failing matcher call
throws an error whose operator is the humanized matcher name (with the
`not ` prefix exactly when negated); a registered checker that passes an
`operator` entry to `setErrorProperties` overrides that field through the
`objectAssign` merge, so an un-negated failing call of a matcher named
`toBeFoo` can throw with operator `custom op` instead of `to be foo`. -/
theorem c7_operator_override_counterexample :
    matchOutcomeOperator (applyMatcher { jsActual := .num (.fin 1), jsDescription := .undefined }
        "toBeFoo" false true (.num (.fin 2))
        { result := .bool false, errProps := [("operator", .str "custom op")] }) =
      .str "custom op" ∧
    JsValue.str "custom op" ≠ .str "to be foo" ∧
    makeHumanReadable "toBeFoo" = "to be foo" :=
  ⟨rfl, by simp, rfl⟩

/-- C7, amended. When the coerced checker result differs from the
negation flag the matcher call returns the chain object whose `and` is
the very expectation it was invoked on; otherwise it throws an
`ExpectationError` whose operator is the humanized matcher name prefixed
with `not ` exactly when negated — unless the checker supplied an
`operator` entry through `setErrorProperties`, in which case that entry
wins the `objectAssign` merge. -/
theorem c7_matcher_dispatch (self : Expectation) (name : String)
    (asNot argSupplied : Bool) (value : JsValue) (run : MatcherRun) :
    (jsTruthy run.result ≠ asNot →
      applyMatcher self name asNot argSupplied value run = .success self) ∧
    (jsTruthy run.result = asNot → lookupProp run.errProps "operator" = none →
      matchOutcomeOperator (applyMatcher self name asNot argSupplied value run) =
        .str ((if asNot then "not " else "") ++ makeHumanReadable name)) ∧
    (jsTruthy run.result = asNot → ∀ o, lookupProp run.errProps "operator" = some o →
      matchOutcomeOperator (applyMatcher self name asNot argSupplied value run) = o) := by
  refine ⟨?_, ?_, ?_⟩
  · intro hne
    have hb : (jsTruthy run.result != asNot) = true := bne_iff_ne.mpr hne
    simp [applyMatcher, hb]
  · intro heq hlk
    have hb : (jsTruthy run.result != asNot) = false := by simp [heq]
    simp [applyMatcher, hb, matchOutcomeOperator, mkExpectationError, hlk]
  · intro heq o hlk
    have hb : (jsTruthy run.result != asNot) = false := by simp [heq]
    simp [applyMatcher, hb, matchOutcomeOperator, mkExpectationError, hlk]

/-- C7, witness for the amended theorem: a negated matcher call whose
checker returned a truthy value and set no error properties fails with
the `not `-prefixed humanized operator. -/
theorem c7_matcher_dispatch_witness :
    matchOutcomeOperator (applyMatcher { jsActual := .num (.fin 1), jsDescription := .undefined }
        "toBe" true true (.num (.fin 2)) { result := .bool true }) = .str "not to be" :=
  Eq.trans
    ((c7_matcher_dispatch { jsActual := .num (.fin 1), jsDescription := .undefined }
        "toBe" true true (.num (.fin 2)) { result := .bool true }).2.1 rfl rfl)
    rfl

/-- The long rendering form is never the empty string: its first joined
part already carries the error name. -/
theorem longForm_ne_empty (d a o e : JsValue) :
    longForm "ExpectationError" d a o e ≠ "" := by
  intro h
  have hlen := congrArg String.length h
  rw [longForm] at hlen
  simp only [joinSpace, String.length_append] at hlen
  have e1 : ("ExpectationError").length = 16 := rfl
  have e2 : (": Expected").length = 10 := rfl
  have e3 : (" ").length = 1 := rfl
  have e4 : ("").length = 0 := rfl
  omega

/-- C8, counterexample. The claim states that for options without a
message the rendered string is a single `ExpectationError: Expected ...`
line; on the code the constructor computes that line (already carrying
the name prefix) and stores it in `message`, and `toString` then prefixes
the name a second time, so the rendering carries the name twice. -/
theorem c8_render_counterexample :
    expectationErrorToString (mkExpectationError
      { operator := .str "to be", actual := .num (.fin 1),
        expected := .num (.fin 2), description := .str "value" }) =
      "ExpectationError: ExpectationError: Expected value 1 to be 2" ∧
    "ExpectationError: ExpectationError: Expected value 1 to be 2" ≠
      "ExpectationError: Expected value 1 to be 2" :=
  ⟨rfl, by decide⟩

/-- C8, amended. With a truthy message the rendering is
`ExpectationError: ` followed by the message. Without one, the
construction stores the long form — `ExpectationError: Expected` followed
by the joined description, the replacer-serialized actual, the operator,
and the replacer-serialized expected with the empty string exactly when
the expected value is the `NULL_VALUE` sentinel — in the `message` field,
and the rendering then prefixes `ExpectationError: ` once more, so the
name appears twice. -/
theorem c8_error_rendering (o : ErrorOptions) :
    (jsTruthy o.message = true →
      expectationErrorToString (mkExpectationError o) =
        "ExpectationError: " ++ jsToString o.message) ∧
    (jsTruthy o.message = false →
      (mkExpectationError o).message =
        .str (longForm "ExpectationError" o.description o.actual o.operator o.expected) ∧
      expectationErrorToString (mkExpectationError o) =
        "ExpectationError: " ++
          longForm "ExpectationError" o.description o.actual o.operator o.expected) := by
  constructor
  · intro hm
    simp [mkExpectationError, expectationErrorToString, hm]
  · intro hm
    have hmv : (mkExpectationError o).message =
        .str (longForm "ExpectationError" o.description o.actual o.operator o.expected) := by
      simp [mkExpectationError, hm]
    refine ⟨hmv, ?_⟩
    have htr : jsTruthy (JsValue.str
        (longForm "ExpectationError" o.description o.actual o.operator o.expected)) = true := by
      simp only [jsTruthy, bne_iff_ne, ne_eq]
      simpa using longForm_ne_empty o.description o.actual o.operator o.expected
    rw [expectationErrorToString, hmv, htr, if_pos rfl]
    simp [mkExpectationError, jsToString]

/-- C8, witness for the amended theorem at a concrete message-bearing
options record. -/
theorem c8_error_rendering_witness :
    expectationErrorToString (mkExpectationError { message := .str "boom" }) =
      "ExpectationError: boom" :=
  Eq.trans ((c8_error_rendering { message := .str "boom" }).1 rfl) rfl

/-- C9. Constructing a promised expectation on a value that is falsy or
whose `then` member is not a function throws the `TypeError` at the point
of the call (the error branch of the embedded constructor — nothing is
deferred); on a value with a `then` function it returns the wrapper
without throwing. -/
theorem c9_promised_type_guard (v d : JsValue) :
    ((jsTruthy v = false ∨ typeOf (getField v "then") ≠ "function") →
      promisedExpectation v d = .error "Expected a promise.") ∧
    (jsTruthy v = true → typeOf (getField v "then") = "function" →
      promisedExpectation v d = .ok { jsPromise := v, jsDescription := d }) := by
  constructor
  · rintro (h | h)
    · simp [promisedExpectation, h]
    · have hb : (typeOf (getField v "then") != "function") = true := bne_iff_ne.mpr h
      simp [promisedExpectation, hb]
  · intro h1 h2
    simp [promisedExpectation, h1, h2]

/-- C9, witness: a number (truthy, but its `then` member is `undefined`)
throws, and an object carrying a `then` function constructs. -/
theorem c9_promised_type_guard_witness :
    promisedExpectation (.num (.fin 5)) .undefined = .error "Expected a promise." ∧
    promisedExpectation (.obj 3 [("then", .fn 4 "function () \x7b\x7d")]) .undefined =
      .ok { jsPromise := .obj 3 [("then", .fn 4 "function () \x7b\x7d")],
            jsDescription := .undefined } :=
  ⟨(c9_promised_type_guard (.num (.fin 5)) .undefined).1 (Or.inr (by decide)),
   (c9_promised_type_guard (.obj 3 [("then", .fn 4 "function () \x7b\x7d")]) .undefined).2
     rfl rfl⟩

/-- C10. `expect.fail` always produces an `ExpectationError` (the
function body is a single unconditional throw of the returned record),
and for every falsy argument — the empty string included — the error
message is the default `Force failed.` rather than the supplied value;
for a truthy argument the message is the argument itself. -/
theorem c10_fail_default_message (m : JsValue) :
    (expectFail m).name = "ExpectationError" ∧
    (jsTruthy m = false → (expectFail m).message = .str "Force failed.") ∧
    (jsTruthy m = true → (expectFail m).message = m) := by
  refine ⟨rfl, ?_, ?_⟩
  · intro h
    unfold expectFail
    rw [if_neg (by simp [h])]
    rfl
  · intro h
    unfold expectFail
    rw [if_pos (by simp [h])]
    unfold mkExpectationError
    simp only
    rw [if_pos (by simp [h])]

/-- C10, witness at the empty string, the falsy value the claim singles
out. -/
theorem c10_fail_default_message_witness :
    (expectFail (.str "")).message = .str "Force failed." :=
  (c10_fail_default_message (.str "")).2.1 rfl

end Expectacle
